import Mathlib

/-!
Verification of `bedrock-test-script.py`: a shallow embedding of the
timing-test harness (Timer, stage runner, iteration loop, aggregator) and of
the Bedrock request-building / response-parsing helpers, with theorems about
the properties stated in the specification.

Durations are modelled as rationals (`ℚ`), JSON payloads as an inductive
`Json` value type (numbers as rationals), and the Python exceptions that the
parsing code can raise as the inductive `PyExn`.  The external collaborators
(the boto3 client, the network) are modelled as an explicit environment
record whose stage functions may fail, exactly as the script's three staged
calls may.
-/

namespace BedrockTiming

/-- Python's `pat in s` substring test on strings: `pat`'s characters occur
contiguously inside `s`'s. -/
def containsSub (s pat : String) : Bool :=
  decide (pat.toList <:+: s.toList)

/-- A decoded JSON value, as produced by `json.loads`: `None`, booleans,
numbers (modelled as rationals), strings, arrays, and objects (ordered
key/value lists with distinct keys, as Python dicts preserve insertion
order). -/
inductive Json where
  | null : Json
  | bool (b : Bool) : Json
  | num (q : ℚ) : Json
  | str (s : String) : Json
  | arr (items : List Json) : Json
  | obj (fields : List (String × Json)) : Json

/-- The Python exceptions the post-decode part of `parse_response` can raise.
(`json.loads` failure on an undecodable body is outside this type: the
functions below take an already-decoded `Json` value.) -/
inductive PyExn where
  | indexError : PyExn
  | attributeError : PyExn
  | typeError : PyExn
  | keyError : PyExn
deriving DecidableEq

/-- First-match lookup in an object's field list (Python dict keys are
unique, so first-match agrees with dict lookup). -/
def lookupKey : List (String × Json) → String → Option Json
  | [], _ => none
  | (k, v) :: rest, key => if k = key then some v else lookupKey rest key

/-- Python `d.get(key, default)`: on a dict returns the value or the default;
on any non-dict value, `.get` raises `AttributeError`. -/
def Json.getD (j : Json) (key : String) (d : Json) : Except PyExn Json :=
  match j with
  | .obj fields => .ok ((lookupKey fields key).getD d)
  | _ => .error .attributeError

/-- Python `x[0]`: first element of a list (or `IndexError` when empty), a
one-character string of a string's first character (or `IndexError` when
empty), `KeyError` on a dict (JSON object keys are strings, never the int
0), `TypeError` on anything unsubscriptable. -/
def Json.index0 (j : Json) : Except PyExn Json :=
  match j with
  | .arr (x :: _) => .ok x
  | .arr [] => .error .indexError
  | .str s =>
    match s.toList with
    | [] => .error .indexError
    | c :: _ => .ok (.str (String.mk [c]))
  | .obj _ => .error .keyError
  | _ => .error .typeError

mutual

/-- Python `repr` of a decoded JSON value (used by `str` on containers).
Strings are rendered between single quotes; quote-escaping inside string
contents is not modelled, and a non-integral number is rendered as a
rational rather than in float notation — the claims never exercise either
corner. -/
def pyRepr : Json → String
  | .null => "None"
  | .bool true => "True"
  | .bool false => "False"
  | .num q => if q.den = 1 then toString q.num else toString q
  | .str s => "\x27" ++ s ++ "\x27"
  | .arr items => "[" ++ pyReprItems items ++ "]"
  | .obj fields => "\x7b" ++ pyReprFields fields ++ "\x7d"

/-- Comma-separated `repr`s of a list's items. -/
def pyReprItems : List Json → String
  | [] => ""
  | [x] => pyRepr x
  | x :: y :: rest => pyRepr x ++ ", " ++ pyReprItems (y :: rest)

/-- Comma-separated `'key': repr(value)` renderings of a dict's fields. -/
def pyReprFields : List (String × Json) → String
  | [] => ""
  | [(k, v)] => "\x27" ++ k ++ "\x27: " ++ pyRepr v
  | (k, v) :: f :: rest => "\x27" ++ k ++ "\x27: " ++ pyRepr v ++ ", " ++ pyReprFields (f :: rest)

end

/-- Python `str` of a decoded JSON value: a top-level string renders bare,
everything else as its `repr`. -/
def pyStr (j : Json) : String :=
  match j with
  | .str s => s
  | _ => pyRepr j

/-! ## `invoke_model`: request-body construction (lines 47-76)

Only the request body built before the network call is modelled; the network
send itself is an external collaborator (see `Env` below). -/

/-- The request body of the `"claude" in model_id` branch. -/
def claudeRequestBody (prompt : String) (max_tokens : ℚ) : Json :=
  .obj [("anthropic_version", .str "bedrock-2023-05-31"),
        ("max_tokens", .num max_tokens),
        ("messages", .arr [.obj [("role", .str "user"), ("content", .str prompt)]])]

/-- The request body of the `"titan" in model_id` branch. -/
def titanRequestBody (prompt : String) (max_tokens : ℚ) : Json :=
  .obj [("inputText", .str prompt),
        ("textGenerationConfig",
          .obj [("maxTokenCount", .num max_tokens),
                ("temperature", .num (7/10))])]

/-- The request body of the generic fallback branch. -/
def genericRequestBody (prompt : String) (max_tokens : ℚ) : Json :=
  .obj [("prompt", .str prompt), ("max_tokens", .num max_tokens)]

/-- The request body `invoke_model` serializes and sends: dispatched on the
model identifier by the substring tests of lines 51-67, `"claude"` tested
first. -/
def invoke_model_body (model_id prompt : String) (max_tokens : ℚ) : Json :=
  if containsSub model_id "claude" then
    claudeRequestBody prompt max_tokens
  else if containsSub model_id "titan" then
    titanRequestBody prompt max_tokens
  else
    genericRequestBody prompt max_tokens

/-! ## `parse_response` (lines 79-97)

The body has already been decoded by `json.loads` (decode failure —
`ParseError` in the spec's taxonomy — is the one failure mode outside these
functions).  Each branch is the literal sequence of `.get`/`[0]` accesses of
the source, in source order, so any Python exception they can raise is
reproduced. -/

/-- The `"claude" in model_id` parsing branch (lines 85-87). -/
def parseClaude (response_body : Json) : Except PyExn (Json × Json × Json) := do
  let c ← response_body.getD "content" (.arr [.obj []])
  let c0 ← c.index0
  let content ← c0.getD "text" (.str "")
  let usage1 ← response_body.getD "usage" (.obj [])
  let input_tokens ← usage1.getD "input_tokens" (.num 0)
  let usage2 ← response_body.getD "usage" (.obj [])
  let output_tokens ← usage2.getD "output_tokens" (.num 0)
  return (content, input_tokens, output_tokens)

/-- The `"titan" in model_id` parsing branch (lines 89-91). -/
def parseTitan (response_body : Json) : Except PyExn (Json × Json × Json) := do
  let r ← response_body.getD "results" (.arr [.obj []])
  let r0 ← r.index0
  let content ← r0.getD "outputText" (.str "")
  let input_tokens ← response_body.getD "inputTextTokenCount" (.num 0)
  let r2 ← response_body.getD "results" (.arr [.obj []])
  let r20 ← r2.index0
  let output_tokens ← r20.getD "tokenCount" (.num 0)
  return (content, input_tokens, output_tokens)

/-- The fallback parsing branch (lines 93-95): `str(response_body)` and zero
token counts; it cannot fail. -/
def parseGeneric (response_body : Json) : Except PyExn (Json × Json × Json) :=
  .ok (.str (pyStr response_body), .num 0, .num 0)

/-- `parse_response` after `json.loads`: the same substring dispatch as
`invoke_model_body`, `"claude"` tested first. -/
def parse_response (response_body : Json) (model_id : String) :
    Except PyExn (Json × Json × Json) :=
  if containsSub model_id "claude" then parseClaude response_body
  else if containsSub model_id "titan" then parseTitan response_body
  else parseGeneric response_body

/-- The three provider schemas the substring dispatch distinguishes. -/
inductive Provider where
  | claude : Provider
  | titan : Provider
  | generic : Provider
deriving DecidableEq

/-- The provider schema selected for a model identifier: the shared dispatch
rule both `invoke_model` and `parse_response` implement (`"claude"` before
`"titan"`, generic otherwise). -/
def providerOf (model_id : String) : Provider :=
  if containsSub model_id "claude" then .claude
  else if containsSub model_id "titan" then .titan
  else .generic

/-! ## The Timer (`time_operation`, lines 18-31)

`time_operation` wraps an operation: it reads `time.perf_counter()`, runs
the operation, reads the counter again and returns `(result, end - start)`.
The world model makes both effects explicit: `now` is a cursor into an
abstract monotone-clock reading stream `clock : Nat → ℚ` (each
`perf_counter()` call consumes one reading and advances the cursor), and
`opCalls` counts how many times the wrapped operation has been entered. -/

structure World where
  now : Nat
  opCalls : Nat
deriving DecidableEq

/-- The `wrapper` built by the `time_operation` decorator: read the clock,
run the wrapped operation exactly once, and on success read the clock again
and return the result paired with the elapsed seconds; an exception from the
operation propagates before the second clock read. -/
def time_operation {A E : Type} (clock : Nat → ℚ) (op : World → Except E A × World)
    (w : World) : Except E (A × ℚ) × World :=
  let start := clock w.now
  let w1 : World := ⟨w.now + 1, w.opCalls⟩
  match op ⟨w1.now, w1.opCalls + 1⟩ with
  | (.error e, w2) => (.error e, w2)
  | (.ok a, w2) =>
    let endT := clock w2.now
    (.ok (a, endT - start), ⟨w2.now + 1, w2.opCalls⟩)

/-! ## The iteration loop (`run_timing_test`, lines 100-173)

The three staged calls (`initialize_client`, `invoke_model`,
`parse_response`) hit external collaborators (boto3, the network), so the
loop is modelled against an environment of stage functions.  Each stage
function returns, like the decorated Python functions, the stage's result
paired with its elapsed seconds, or fails; the extra `Nat` argument is the
iteration index, standing for the state of the outside world on that pass
(each network call may answer differently).  `initClient` takes no index:
it only ever runs on iteration 0. -/

structure Env (C R E : Type) where
  initClient : Except E (C × ℚ)
  invokeModel : C → Nat → Except E (R × ℚ)
  parseResponse : R → Nat → Except E ((String × Int × Int) × ℚ)

/-- The `timings` dict appended to `all_timings` for one iteration
(lines 122-153): `client_init` is set only on iteration 0. -/
structure Timings where
  client_init : Option ℚ
  api_call : ℚ
  response_parse : ℚ
  total_with_init : ℚ
  total_without_init : ℚ
  input_tokens : Int
  output_tokens : Int
  response_length : Nat
deriving DecidableEq

/-- What the invoke and parse stages of one iteration produce. -/
structure IterData where
  apiTime : ℚ
  parseTime : ℚ
  content : String
  inTok : Int
  outTok : Int
deriving DecidableEq

/-- Lines 130-153: build one iteration's `timings` dict from the stage
outputs.  `total_with_init` uses `timings.get("client_init", 0)`, so an
absent `client_init` contributes 0. -/
def mkRecord (initTime : Option ℚ) (b : IterData) : Timings :=
  { client_init := initTime
    api_call := b.apiTime
    response_parse := b.parseTime
    total_with_init := initTime.getD 0 + b.apiTime + b.parseTime
    total_without_init := b.apiTime + b.parseTime
    input_tokens := b.inTok
    output_tokens := b.outTok
    response_length := b.content.length }

/-- The invoke and parse stages of iteration `j` with client `c`
(lines 130-142): `invoke_model` then `parse_response`, each either
contributing its elapsed time or aborting the iteration. -/
def iterBody {C R E : Type} (env : Env C R E) (c : C) (j : Nat) :
    Except E IterData := do
  let (response, api_time) ← env.invokeModel c j
  let ((content, input_tokens, output_tokens), parse_time) ← env.parseResponse response j
  return ⟨api_time, parse_time, content, input_tokens, output_tokens⟩

/-- Iterations `j, j+1, ...` (`remaining` of them) after iteration 0: the
client from iteration 0 is reused, no further `client_init` entry is made,
and the first failing iteration stops the loop with the exception and the
records accumulated so far (the list is built in append order, as
`all_timings.append` does).  The 500 ms `time.sleep` between iterations has
no observable effect in this model. -/
def runRest {C R E : Type} (env : Env C R E) (c : C) :
    Nat → Nat → List Timings × Option E
  | _, 0 => ([], none)
  | j, remaining + 1 =>
    match iterBody env c j with
    | .error e => ([], some e)
    | .ok b =>
      let (rest, err) := runRest env c (j + 1) remaining
      (mkRecord none b :: rest, err)

/-- The whole `for i in range(iterations)` loop (lines 118-167): iteration 0
initializes the client (timed) and every later iteration reuses it.  The
result is `all_timings` as accumulated, plus the exception that escaped the
loop, if any. -/
def runAll {C R E : Type} (env : Env C R E) (iterations : Nat) :
    List Timings × Option E :=
  match iterations with
  | 0 => ([], none)
  | remaining + 1 =>
    match env.initClient with
    | .error e => ([], some e)
    | .ok (c, init_time) =>
      match iterBody env c 0 with
      | .error e => ([], some e)
      | .ok b =>
        let (rest, err) := runRest env c 1 remaining
        (mkRecord (some init_time) b :: rest, err)

/-! ## The aggregator (`print_summary`, lines 176-213) -/

/-- One row of the summary table: min, max, mean and median of a metric's
millisecond values. -/
structure StatRow where
  minV : ℚ
  maxV : ℚ
  avgV : ℚ
  medianV : ℚ
deriving DecidableEq

/-- The summary's content: one row per summarized metric (`none` when that
metric has no values) and the mean token counts (lines 209-210). -/
structure SummaryOut where
  apiCallRow : Option StatRow
  responseParseRow : Option StatRow
  totalWithoutInitRow : Option StatRow
  avgInputTokens : ℚ
  avgOutputTokens : ℚ
deriving DecidableEq

/-- One row of the summary table for one metric's millisecond values:
`min(values)`, `max(values)`, `sum(values)/len(values)`, and
`sorted(values)[len(values)//2]`; no row when `values` is empty
(line 191's `if values:`). -/
def statRow (values : List ℚ) : Option StatRow :=
  match values with
  | [] => none
  | v :: vs =>
    let values_sorted := (v :: vs).insertionSort (· ≤ ·)
    some { minV := vs.foldl min v
           maxV := vs.foldl max v
           avgV := (v :: vs).sum / (v :: vs).length
           medianV := values_sorted.getD ((v :: vs).length / 2) 0 }

/-- A metric's values in milliseconds, `[t[metric] * 1000 for t in
all_timings if metric in t]`.  The three summarized metrics (`api_call`,
`response_parse`, `total_without_init`) are present in every record, so the
`if metric in t` filter keeps every record. -/
def msValues (metric : Timings → ℚ) (all_timings : List Timings) : List ℚ :=
  all_timings.map (fun t => metric t * 1000)

/-- Everything `print_summary` computes: one table row per summarized
metric, and the mean token counts.  (On an empty record list Python would
raise `ZeroDivisionError` at line 209; the caller only ever passes a run of
at least 2 records, and `ℚ`'s total division renders the reachable cases
faithfully.) -/
def print_summary (all_timings : List Timings) : SummaryOut :=
  { apiCallRow := statRow (msValues (fun t => t.api_call) all_timings)
    responseParseRow := statRow (msValues (fun t => t.response_parse) all_timings)
    totalWithoutInitRow := statRow (msValues (fun t => t.total_without_init) all_timings)
    avgInputTokens :=
      (all_timings.map (fun t => (t.input_tokens : ℚ))).sum / all_timings.length
    avgOutputTokens :=
      (all_timings.map (fun t => (t.output_tokens : ℚ))).sum / all_timings.length }

/-- The observable outcome of `run_timing_test`: the accumulated records,
the exception that escaped (if any), and the summary statistics, computed
only when the loop completed and `iterations > 1` (lines 170-171). -/
structure RunResult (E : Type) where
  records : List Timings
  error : Option E
  summary : Option SummaryOut
deriving DecidableEq

/-- `run_timing_test` (lines 100-173): run the loop; on normal completion
with more than one iteration, also compute the summary.  An escaped
exception skips the summary (it propagates to `main`). -/
def run_timing_test {C R E : Type} (env : Env C R E) (iterations : Nat) :
    RunResult E :=
  match runAll env iterations with
  | (recs, none) =>
    { records := recs, error := none
      summary := if 1 < iterations then some (print_summary recs) else none }
  | (recs, some e) => { records := recs, error := some e, summary := none }

/-- `main`'s exit code (lines 249-265): 1 when an exception escaped
`run_timing_test`, 0 otherwise. -/
def mainExit {C R E : Type} (env : Env C R E) (iterations : Nat) : Nat :=
  match (run_timing_test env iterations).error with
  | some _ => 1
  | none => 0

/-! ## Theorems -/

/-- Claim C10: with `iterations = 0` the loop body never executes: no stage
of the environment is consulted (the result is the same for every
environment, even one whose client initialization fails), `run_timing_test`
returns an empty record list with no error and no summary, and `main` exits
with code 0. -/
theorem zero_iterations_noop (C R E : Type) (env : Env C R E) :
    run_timing_test env 0 = ⟨[], none, none⟩ ∧ mainExit env 0 = 0 :=
  ⟨rfl, rfl⟩

/-- Claim C6: `invoke_model` selects the request-body shape by substring
match on the model identifier, testing `"claude"` first, then `"titan"`,
with a generic `{prompt, max_tokens}` fallback; the three shapes are exactly
`claudeRequestBody`, `titanRequestBody` and `genericRequestBody`. -/
theorem invoke_model_body_dispatch (model_id prompt : String) (max_tokens : ℚ) :
    (containsSub model_id "claude" = true →
      invoke_model_body model_id prompt max_tokens = claudeRequestBody prompt max_tokens) ∧
    (containsSub model_id "claude" = false → containsSub model_id "titan" = true →
      invoke_model_body model_id prompt max_tokens = titanRequestBody prompt max_tokens) ∧
    (containsSub model_id "claude" = false → containsSub model_id "titan" = false →
      invoke_model_body model_id prompt max_tokens = genericRequestBody prompt max_tokens) := by
  refine ⟨fun hc => ?_, fun hc ht => ?_, fun hc ht => ?_⟩ <;>
    simp [invoke_model_body, hc]
  · simp [ht]
  · simp [ht]

/-- Claim C9: request construction and response parsing dispatch on the same
provider rule (`providerOf`), with `"claude"` taking precedence over
`"titan"` at both sites; in particular `"claude-titan"`, which contains both
substrings, resolves to the claude provider. -/
theorem provider_dispatch_consistent (model_id prompt : String) (max_tokens : ℚ)
    (body : Json) :
    invoke_model_body model_id prompt max_tokens =
      (match providerOf model_id with
       | .claude => claudeRequestBody prompt max_tokens
       | .titan => titanRequestBody prompt max_tokens
       | .generic => genericRequestBody prompt max_tokens) ∧
    parse_response body model_id =
      (match providerOf model_id with
       | .claude => parseClaude body
       | .titan => parseTitan body
       | .generic => parseGeneric body) ∧
    (containsSub model_id "claude" = true → providerOf model_id = .claude) ∧
    containsSub "claude-titan" "claude" = true ∧
    containsSub "claude-titan" "titan" = true ∧
    providerOf "claude-titan" = .claude := by
  refine ⟨?_, ?_, fun hc => by simp [providerOf, hc], by decide, by decide, by decide⟩ <;>
    rcases hc : containsSub model_id "claude" <;>
      rcases ht : containsSub model_id "titan" <;>
        simp [invoke_model_body, parse_response, providerOf, hc, ht]

/-- Claim C3: for every non-empty value list the aggregator's median is the
element at index `⌊N/2⌋` of the ascending-sorted list (upper median, not
interpolated); over `[2,4,6]` it is `4` and over `[2,4,6,8]` it is the
element at index 2, namely `6`. -/
theorem median_upper_index :
    (∀ (v : ℚ) (vs : List ℚ), ∃ row, statRow (v :: vs) = some row ∧
      ∃ s, List.Perm s (v :: vs) ∧ List.Sorted (· ≤ ·) s ∧
        row.medianV = s.getD ((v :: vs).length / 2) 0) ∧
    statRow [2, 4, 6] = some ⟨2, 6, 4, 4⟩ ∧
    statRow [2, 4, 6, 8] = some ⟨2, 8, 5, 6⟩ := by
  refine ⟨fun v vs => ?_, ?_, ?_⟩
  · refine ⟨_, rfl, (v :: vs).insertionSort (· ≤ ·),
      List.perm_insertionSort _ _, List.sorted_insertionSort _ _, rfl⟩
  · simp [statRow, List.insertionSort, List.orderedInsert]
    norm_num
  · simp [statRow, List.insertionSort, List.orderedInsert]
    norm_num

/-- Claim C7: the Timer wrapper runs the wrapped operation exactly once
(entering it with the call count incremented by one and never re-entering),
returns the operation's result paired with the elapsed clock difference, and
lets an exception propagate untransformed with no timing attached and no
second clock read. -/
theorem time_operation_spec (A E : Type) (clock : Nat → ℚ)
    (op : World → Except E A × World) (w : World) :
    (∀ (a : A) (w2 : World), op ⟨w.now + 1, w.opCalls + 1⟩ = (.ok a, w2) →
      time_operation clock op w =
        (.ok (a, clock w2.now - clock w.now), ⟨w2.now + 1, w2.opCalls⟩)) ∧
    (∀ (e : E) (w2 : World), op ⟨w.now + 1, w.opCalls + 1⟩ = (.error e, w2) →
      time_operation clock op w = (.error e, w2)) := by
  constructor <;> intro x w2 h <;> simp [time_operation, h]

/-! ### Behaviour of the iteration loop -/

/-- When iterations `j, ..., j+remaining-1` all succeed, `runRest` collects
one record per iteration, in order, with no `client_init` entry. -/
lemma runRest_ok {C R E : Type} (env : Env C R E) (c : C) (b : Nat → IterData) :
    ∀ (remaining j : Nat),
      (∀ i, i < remaining → iterBody env c (j + i) = .ok (b (j + i))) →
      runRest env c j remaining =
        ((List.range remaining).map (fun i => mkRecord none (b (j + i))), none) := by
  intro remaining
  induction remaining with
  | zero => intro j _; rfl
  | succ r ih =>
    intro j h
    have h0 : iterBody env c j = .ok (b j) := by
      have := h 0 (Nat.succ_pos r); simpa using this
    have ih' := ih (j + 1) (fun i hi => by
      have := h (i + 1) (Nat.succ_lt_succ hi)
      have heq : j + (i + 1) = j + 1 + i := by omega
      rwa [heq] at this)
    simp only [runRest, h0, ih']
    have hshift : ∀ i : Nat, j + 1 + i = j + (i + 1) := fun i => by omega
    simp [List.range_succ_eq_map, List.map_map, Function.comp, hshift]

/-- When iterations `j, ..., j+k-1` succeed and iteration `j+k` fails with
`e`, `runRest` stops at the failure: exactly the `k` earlier records are
kept and the exception is surfaced. -/
lemma runRest_fail {C R E : Type} (env : Env C R E) (c : C) (b : Nat → IterData)
    (e : E) :
    ∀ (k remaining j : Nat), k < remaining →
      (∀ i, i < k → iterBody env c (j + i) = .ok (b (j + i))) →
      iterBody env c (j + k) = .error e →
      runRest env c j remaining =
        ((List.range k).map (fun i => mkRecord none (b (j + i))), some e) := by
  intro k
  induction k with
  | zero =>
    intro remaining j hk hok hfail
    rcases remaining with _ | r
    · omega
    · simp only [Nat.add_zero] at hfail
      simp [runRest, hfail]
  | succ k ih =>
    intro remaining j hk hok hfail
    rcases remaining with _ | r
    · omega
    · have h0 : iterBody env c j = .ok (b j) := by
        have := hok 0 (Nat.succ_pos k); simpa using this
      have ih' := ih r (j + 1) (by omega)
        (fun i hi => by
          have := hok (i + 1) (Nat.succ_lt_succ hi)
          have hq : j + (i + 1) = j + 1 + i := by omega
          rwa [hq] at this)
        (by
          have hq : j + (k + 1) = j + 1 + k := by omega
          rwa [hq] at hfail)
      simp only [runRest, h0, ih']
      have hshift : ∀ i : Nat, j + 1 + i = j + (i + 1) := fun i => by omega
      simp [List.range_succ_eq_map, List.map_map, Function.comp, hshift]

/-- Every record `runRest` ever emits is built by `mkRecord` with no
`client_init` entry. -/
lemma runRest_mem {C R E : Type} (env : Env C R E) (c : C) :
    ∀ (remaining j : Nat) (t : Timings), t ∈ (runRest env c j remaining).1 →
      ∃ bd, t = mkRecord none bd := by
  intro remaining
  induction remaining with
  | zero => intro j t ht; simp [runRest] at ht
  | succ r ih =>
    intro j t ht
    simp only [runRest] at ht
    rcases hb : iterBody env c j with e | bd
    · simp [hb] at ht
    · rw [hb] at ht
      simp only at ht
      rcases List.mem_cons.mp ht with h | h
      · exact ⟨bd, h⟩
      · exact ih (j + 1) t h

/-- When the client initializes to `c` and iterations `0, ..., N-1` all
succeed, the full loop collects exactly `N` records in iteration order, the
first with the init time, the rest without, every one produced by invoking
the iteration-0 client `c`. -/
lemma runAll_ok {C R E : Type} (env : Env C R E) (c : C) (t0 : ℚ)
    (b : Nat → IterData) (N : Nat) (hN : 1 ≤ N)
    (hinit : env.initClient = .ok (c, t0))
    (hok : ∀ j, j < N → iterBody env c j = .ok (b j)) :
    runAll env N =
      ((List.range N).map (fun j => mkRecord (if j = 0 then some t0 else none) (b j)),
       none) := by
  rcases N with _ | r
  · omega
  · have h0 : iterBody env c 0 = .ok (b 0) := hok 0 (Nat.succ_pos r)
    have hrest := runRest_ok env c b r 1 (fun i hi => hok (1 + i) (by omega))
    simp only [runAll, hinit, h0, hrest]
    have hshift : ∀ i : Nat, 1 + i = i + 1 := fun i => by omega
    simp [List.range_succ_eq_map, List.map_map, Function.comp, hshift]

/-- When the client initializes to `c`, iterations `0, ..., k-1` succeed and
iteration `k < N` fails with `e`, the loop halts at the failure: exactly the
records of iterations `0, ..., k-1` are kept and the exception is
surfaced. -/
lemma runAll_fail {C R E : Type} (env : Env C R E) (c : C) (t0 : ℚ)
    (b : Nat → IterData) (e : E) (N k : Nat) (hk : k < N)
    (hinit : env.initClient = .ok (c, t0))
    (hok : ∀ j, j < k → iterBody env c j = .ok (b j))
    (hfail : iterBody env c k = .error e) :
    runAll env N =
      ((List.range k).map (fun j => mkRecord (if j = 0 then some t0 else none) (b j)),
       some e) := by
  rcases N with _ | r
  · omega
  · rcases k with _ | k
    · simp [runAll, hinit, hfail]
    · have h0 : iterBody env c 0 = .ok (b 0) := hok 0 (Nat.succ_pos k)
      have hrest := runRest_fail env c b e k r 1 (by omega)
        (fun i hi => by
          have := hok (i + 1) (Nat.succ_lt_succ hi)
          have hq : i + 1 = 1 + i := by omega
          rwa [hq] at this)
        (by
          have hq : 1 + k = k + 1 := by omega
          rwa [hq])
      simp only [runAll, hinit, h0, hrest]
      have hshift : ∀ i : Nat, 1 + i = i + 1 := fun i => by omega
      simp [List.range_succ_eq_map, List.map_map, Function.comp, hshift]

/-- Every record the loop ever accumulates is built by `mkRecord`. -/
lemma runAll_mem {C R E : Type} (env : Env C R E) (N : Nat) (t : Timings)
    (ht : t ∈ (runAll env N).1) : ∃ io bd, t = mkRecord io bd := by
  rcases N with _ | r
  · simp [runAll] at ht
  · simp only [runAll] at ht
    rcases hi : env.initClient with e | ct
    · simp [hi] at ht
    · rcases ct with ⟨c, t0⟩
      rw [hi] at ht
      simp only at ht
      rcases hb : iterBody env c 0 with e | bd
      · simp [hb] at ht
      · rw [hb] at ht
        simp only at ht
        rcases List.mem_cons.mp ht with h | h
        · exact ⟨some t0, bd, h⟩
        · rcases runRest_mem env c r 1 t h with ⟨bd', h'⟩
          exact ⟨none, bd', h'⟩

/-- Claim C5: for every `N ≥ 1`, a failure-free run of `N` iterations
produces exactly `N` records in iteration order, only record 0 carries a
client-init duration, and every iteration invokes the client `c` created on
iteration 0 (the hypotheses constrain the environment only at `c`, so the
conclusion can hold only because the loop reuses `c` throughout). -/
theorem run_success_records (C R E : Type) (env : Env C R E) (N : Nat) (c : C)
    (t0 : ℚ) (b : Nat → IterData) (hN : 1 ≤ N)
    (hinit : env.initClient = .ok (c, t0))
    (hok : ∀ j, j < N → iterBody env c j = .ok (b j)) :
    (run_timing_test env N).records =
      (List.range N).map (fun j => mkRecord (if j = 0 then some t0 else none) (b j)) ∧
    (run_timing_test env N).records.length = N ∧
    (run_timing_test env N).error = none ∧
    ((run_timing_test env N).records.getD 0 (mkRecord none (b 0))).client_init = some t0 ∧
    (∀ j, 0 < j →
      ((run_timing_test env N).records.getD j (mkRecord none (b j))).client_init = none) := by
  have hall := runAll_ok env c t0 b N hN hinit hok
  have hrun : run_timing_test env N =
      { records :=
          (List.range N).map (fun j => mkRecord (if j = 0 then some t0 else none) (b j))
        error := none
        summary := if 1 < N then
          some (print_summary
            ((List.range N).map (fun j => mkRecord (if j = 0 then some t0 else none) (b j))))
          else none } := by
    simp [run_timing_test, hall]
  refine ⟨by rw [hrun], by rw [hrun]; simp, by rw [hrun], ?_, ?_⟩
  · rw [hrun]
    rcases N with _ | r
    · omega
    · simp [List.range_succ_eq_map, mkRecord]
  · intro j hj
    rw [hrun]
    by_cases hjN : j < N
    · rw [List.getD_eq_getElem?_getD]
      rw [List.getElem?_map]
      rw [List.getElem?_range hjN]
      simp [mkRecord, Nat.pos_iff_ne_zero.mp hj]
    · rw [List.getD_eq_getElem?_getD]
      rw [List.getElem?_eq_none (by simpa using Nat.le_of_not_lt hjN)]
      simp [mkRecord]

/-- Claim C2: a stage failure on iteration `k` of an `N`-iteration run halts
the loop at once: exactly the records of iterations `0..k-1` remain, no
record is appended for iteration `k`, no summary is computed, the exception
is reported, and the process exits with code 1.  The first part covers a
failing invoke/parse stage on any iteration `k < N`, the second a failing
client-initialization stage (iteration 0's first stage). -/
theorem run_halts_on_stage_failure :
    (∀ (C R E : Type) (env : Env C R E) (N k : Nat) (c : C) (t0 : ℚ)
       (b : Nat → IterData) (e : E),
       k < N → env.initClient = .ok (c, t0) →
       (∀ j, j < k → iterBody env c j = .ok (b j)) →
       iterBody env c k = .error e →
       run_timing_test env N =
         ⟨(List.range k).map (fun j => mkRecord (if j = 0 then some t0 else none) (b j)),
          some e, none⟩ ∧
       (run_timing_test env N).records.length = k ∧
       mainExit env N = 1) ∧
    (∀ (C R E : Type) (env : Env C R E) (N : Nat) (e : E),
       0 < N → env.initClient = .error e →
       run_timing_test env N = ⟨[], some e, none⟩ ∧ mainExit env N = 1) := by
  constructor
  · intro C R E env N k c t0 b e hk hinit hok hfail
    have hall := runAll_fail env c t0 b e N k hk hinit hok hfail
    have hrun : run_timing_test env N =
        ⟨(List.range k).map (fun j => mkRecord (if j = 0 then some t0 else none) (b j)),
         some e, none⟩ := by
      simp [run_timing_test, hall]
    exact ⟨hrun, by rw [hrun]; simp, by simp [mainExit, hrun]⟩
  · intro C R E env N e hN hinit
    have hall : runAll env N = ([], some e) := by
      rcases N with _ | r
      · omega
      · simp [runAll, hinit]
    have hrun : run_timing_test env N = ⟨[], some e, none⟩ := by
      simp [run_timing_test, hall]
    exact ⟨hrun, by simp [mainExit, hrun]⟩

/-- Claim C4: every record a run ever accumulates satisfies
`total_without_init = api_call + response_parse` and
`total_with_init = total_without_init + (client_init or 0)` (exactly, since
durations are rationals here), so `total_without_init ≤ total_with_init`
whenever the client-init contribution is non-negative. -/
theorem record_total_invariants (C R E : Type) (env : Env C R E) (N : Nat)
    (t : Timings) (ht : t ∈ (run_timing_test env N).records) :
    t.total_without_init = t.api_call + t.response_parse ∧
    t.total_with_init = t.total_without_init + t.client_init.getD 0 ∧
    (0 ≤ t.client_init.getD 0 → t.total_without_init ≤ t.total_with_init) := by
  have hmem : t ∈ (runAll env N).1 := by
    rcases hall : runAll env N with ⟨recs, err⟩
    have : (run_timing_test env N).records = recs := by
      rcases err with _ | e <;> simp [run_timing_test, hall]
    rw [this] at ht
    simpa [hall] using ht
  rcases runAll_mem env N t hmem with ⟨io, bd, rfl⟩
  refine ⟨rfl, by simp [mkRecord]; ring, fun h => ?_⟩
  simp only [mkRecord] at h ⊢
  linarith

/-- Python's `min(values)` over a non-empty list, as a left fold, is a
member of the list. -/
lemma foldl_min_mem (v : ℚ) (vs : List ℚ) : vs.foldl min v ∈ v :: vs := by
  induction vs generalizing v with
  | nil => simp
  | cons w ws ih =>
    show List.foldl min (min v w) ws ∈ v :: w :: ws
    rcases List.mem_cons.mp (ih (min v w)) with h0 | h0
    · rw [h0]
      rcases min_choice v w with hm | hm <;> rw [hm] <;> simp
    · exact List.mem_cons.mpr (Or.inr (List.mem_cons.mpr (Or.inr h0)))

/-- Python's `min(values)` over a non-empty list is a lower bound of it. -/
lemma foldl_min_le (v : ℚ) (vs : List ℚ) : ∀ x ∈ v :: vs, vs.foldl min v ≤ x := by
  induction vs generalizing v with
  | nil => intro x hx; simp at hx; simp [hx]
  | cons w ws ih =>
    intro x hx
    show List.foldl min (min v w) ws ≤ x
    have hhead : List.foldl min (min v w) ws ≤ min v w :=
      ih (min v w) (min v w) (List.mem_cons_self _ _)
    rcases List.mem_cons.mp hx with h0 | hx'
    · rw [h0]; exact le_trans hhead (min_le_left _ _)
    · rcases List.mem_cons.mp hx' with h1 | hx''
      · rw [h1]; exact le_trans hhead (min_le_right _ _)
      · exact ih (min v w) x (List.mem_cons.mpr (Or.inr hx''))

/-- Python's `max(values)` over a non-empty list is a member of the list. -/
lemma foldl_max_mem (v : ℚ) (vs : List ℚ) : vs.foldl max v ∈ v :: vs := by
  induction vs generalizing v with
  | nil => simp
  | cons w ws ih =>
    show List.foldl max (max v w) ws ∈ v :: w :: ws
    rcases List.mem_cons.mp (ih (max v w)) with h0 | h0
    · rw [h0]
      rcases max_choice v w with hm | hm <;> rw [hm] <;> simp
    · exact List.mem_cons.mpr (Or.inr (List.mem_cons.mpr (Or.inr h0)))

/-- Python's `max(values)` over a non-empty list is an upper bound of it. -/
lemma foldl_max_le (v : ℚ) (vs : List ℚ) : ∀ x ∈ v :: vs, x ≤ vs.foldl max v := by
  induction vs generalizing v with
  | nil => intro x hx; simp at hx; simp [hx]
  | cons w ws ih =>
    intro x hx
    show x ≤ List.foldl max (max v w) ws
    have hhead : max v w ≤ List.foldl max (max v w) ws :=
      ih (max v w) (max v w) (List.mem_cons_self _ _)
    rcases List.mem_cons.mp hx with h0 | hx'
    · rw [h0]; exact le_trans (le_max_left _ _) hhead
    · rcases List.mem_cons.mp hx' with h1 | hx''
      · rw [h1]; exact le_trans (le_max_right _ _) hhead
      · exact ih (max v w) x (List.mem_cons.mpr (Or.inr hx''))

/-- Claim C8: the summary consists of, for each of the three always-present
metrics, the minimum, maximum and arithmetic mean (with the median) of that
metric's values converted to milliseconds — over `[10, 20, 30]` ms the row
is min 10, max 30, mean 20 — plus the arithmetic mean of the input and
output token counts over all records; a single-iteration run computes no
summary. -/
theorem summary_stats_spec :
    (∀ all_timings : List Timings,
      (print_summary all_timings).apiCallRow =
        statRow (msValues (fun t => t.api_call) all_timings) ∧
      (print_summary all_timings).responseParseRow =
        statRow (msValues (fun t => t.response_parse) all_timings) ∧
      (print_summary all_timings).totalWithoutInitRow =
        statRow (msValues (fun t => t.total_without_init) all_timings) ∧
      (print_summary all_timings).avgInputTokens =
        (all_timings.map (fun t => (t.input_tokens : ℚ))).sum / all_timings.length ∧
      (print_summary all_timings).avgOutputTokens =
        (all_timings.map (fun t => (t.output_tokens : ℚ))).sum / all_timings.length) ∧
    (∀ (v : ℚ) (vs : List ℚ) (row : StatRow), statRow (v :: vs) = some row →
      row.minV ∈ v :: vs ∧ (∀ x ∈ v :: vs, row.minV ≤ x) ∧
      row.maxV ∈ v :: vs ∧ (∀ x ∈ v :: vs, x ≤ row.maxV) ∧
      row.avgV = (v :: vs).sum / (v :: vs).length) ∧
    statRow [10, 20, 30] = some ⟨10, 30, 20, 20⟩ ∧
    (∀ (C R E : Type) (env : Env C R E) (N : Nat), 1 < N →
      (run_timing_test env N).error = none →
      (run_timing_test env N).summary =
        some (print_summary (run_timing_test env N).records)) ∧
    (∀ (C R E : Type) (env : Env C R E), (run_timing_test env 1).summary = none) := by
  refine ⟨fun all_timings => ⟨rfl, rfl, rfl, rfl, rfl⟩, ?_, ?_, ?_, ?_⟩
  · intro v vs row hrow
    rw [statRow] at hrow
    simp only [Option.some.injEq] at hrow
    subst hrow
    refine ⟨foldl_min_mem v vs, foldl_min_le v vs, foldl_max_mem v vs,
      foldl_max_le v vs, rfl⟩
  · simp [statRow, List.insertionSort, List.orderedInsert]
    norm_num
  · intro C R E env N hN herr
    rcases hall : runAll env N with ⟨recs, err⟩
    rcases err with _ | e
    · simp [run_timing_test, hall, hN]
    · rw [run_timing_test] at herr
      rw [hall] at herr
      simp at herr
  · intro C R E env
    rcases hall : runAll env 1 with ⟨recs, err⟩
    rcases err with _ | e <;> simp [run_timing_test, hall]

/-! ### Best-effort parsing (claim C1)

The claude and titan branches of `parse_response` default *missing* fields,
but a field that is present with an unexpected shape still raises: e.g. a
claude body whose `content` is the empty list hits `[0]` and raises
`IndexError`.  The two predicates below say exactly which present-field
shapes the branches tolerate. -/

/-- Bodies the claude branch parses without raising: an object whose
`content` field, when present, is a non-empty array with an object first
element, and whose `usage` field, when present, is an object. -/
def claudeShaped (body : Json) : Bool :=
  match body with
  | .obj fields =>
    (match lookupKey fields "content" with
     | none => true
     | some (.arr (.obj _ :: _)) => true
     | some _ => false)
    &&
    (match lookupKey fields "usage" with
     | none => true
     | some (.obj _) => true
     | some _ => false)
  | _ => false

/-- Bodies the titan branch parses without raising: an object whose
`results` field, when present, is a non-empty array with an object first
element. -/
def titanShaped (body : Json) : Bool :=
  match body with
  | .obj fields =>
    (match lookupKey fields "results" with
     | none => true
     | some (.arr (.obj _ :: _)) => true
     | some _ => false)
  | _ => false

/-- The claude branch succeeds on every claude-shaped body. -/
lemma parseClaude_isOk (body : Json) (h : claudeShaped body = true) :
    (parseClaude body).isOk = true := by
  rcases body with _ | b | q | s | items | fields <;> simp [claudeShaped] at h
  obtain ⟨h1, h2⟩ := h
  rcases hc : lookupKey fields "content" with _ | c <;> rw [hc] at h1
  · rcases hu : lookupKey fields "usage" with _ | u <;> rw [hu] at h2
    · simp only [parseClaude, Json.getD, hc, hu]
      rfl
    · rcases u with _ | ub | uq | us | uitems | ufields <;> simp at h2
      simp only [parseClaude, Json.getD, hc, hu]
      rfl
  · rcases c with _ | cb | cq | cs | citems | cfields <;> try simp at h1
    rcases citems with _ | ⟨c0, crest⟩
    · simp at h1
    · rcases c0 with _ | eb | eq' | es | eitems | efields <;> simp at h1
      rcases hu : lookupKey fields "usage" with _ | u <;> rw [hu] at h2
      · simp only [parseClaude, Json.getD, hc, hu]
        rfl
      · rcases u with _ | ub | uq | us | uitems | ufields <;> simp at h2
        simp only [parseClaude, Json.getD, hc, hu]
        rfl

/-- The titan branch succeeds on every titan-shaped body. -/
lemma parseTitan_isOk (body : Json) (h : titanShaped body = true) :
    (parseTitan body).isOk = true := by
  rcases body with _ | b | q | s | items | fields <;> simp [titanShaped] at h
  rcases hr : lookupKey fields "results" with _ | r <;> rw [hr] at h
  · simp only [parseTitan, Json.getD, hr]
    rfl
  · rcases r with _ | rb | rq | rs | ritems | rfields <;> try simp at h
    rcases ritems with _ | ⟨r0, rrest⟩
    · simp at h
    · rcases r0 with _ | eb | eq' | es | eitems | efields <;> simp at h
      simp only [parseTitan, Json.getD, hr]
      rfl

/-- With both looked-up fields missing, the claude branch returns the
documented defaults. -/
lemma parseClaude_defaults (fields : List (String × Json))
    (hc : lookupKey fields "content" = none)
    (hu : lookupKey fields "usage" = none) :
    parseClaude (.obj fields) = .ok (.str "", .num 0, .num 0) := by
  simp only [parseClaude, Json.getD, hc, hu]
  rfl

/-- With both looked-up fields missing, the titan branch returns the
documented defaults. -/
lemma parseTitan_defaults (fields : List (String × Json))
    (hr : lookupKey fields "results" = none)
    (hi : lookupKey fields "inputTextTokenCount" = none) :
    parseTitan (.obj fields) = .ok (.str "", .num 0, .num 0) := by
  simp only [parseTitan, Json.getD, hr, hi]
  rfl

/-- Claim C1 (counterexample): a body that decodes perfectly well — a JSON
object whose `content` field is the empty array — makes `parse_response`
raise `IndexError` under a claude model identifier, so parsing does not
succeed on every decodable body. -/
theorem parse_response_raises_on_empty_content :
    containsSub "us.anthropic.claude-3" "claude" = true ∧
    parse_response (.obj [("content", .arr [])]) "us.anthropic.claude-3" =
      .error .indexError :=
  ⟨by decide, rfl⟩

/-- Claim C1 (amended): parsing is best-effort on bodies whose *present*
fields have the branch's expected shapes: an unrecognized model identifier
always yields the raw string rendering of the decoded body with zero token
counts; under a recognized identifier a shaped body parses without raising,
and fields missing from the body resolve to empty-string content and zero
token counts.  (A present field of unexpected shape — e.g. an empty
`content` array — still raises, per the counterexample.) -/
theorem parse_response_best_effort (model_id : String) (body : Json) :
    (containsSub model_id "claude" = false → containsSub model_id "titan" = false →
      parse_response body model_id = .ok (.str (pyStr body), .num 0, .num 0)) ∧
    (containsSub model_id "claude" = true → claudeShaped body = true →
      (parse_response body model_id).isOk = true) ∧
    (containsSub model_id "claude" = true → ∀ fields, body = .obj fields →
      lookupKey fields "content" = none → lookupKey fields "usage" = none →
      parse_response body model_id = .ok (.str "", .num 0, .num 0)) ∧
    (containsSub model_id "claude" = false → containsSub model_id "titan" = true →
      titanShaped body = true → (parse_response body model_id).isOk = true) ∧
    (containsSub model_id "claude" = false → containsSub model_id "titan" = true →
      ∀ fields, body = .obj fields →
      lookupKey fields "results" = none → lookupKey fields "inputTextTokenCount" = none →
      parse_response body model_id = .ok (.str "", .num 0, .num 0)) := by
  refine ⟨fun hc ht => ?_, fun hc hs => ?_, fun hc fields hb h1 h2 => ?_,
    fun hc ht hs => ?_, fun hc ht fields hb h1 h2 => ?_⟩
  · simp [parse_response, parseGeneric, hc, ht]
  · rw [parse_response, if_pos hc]
    exact parseClaude_isOk body hs
  · subst hb
    rw [parse_response, if_pos hc]
    exact parseClaude_defaults fields h1 h2
  · rw [parse_response, if_neg (by simp [hc]), if_pos ht]
    exact parseTitan_isOk body hs
  · subst hb
    rw [parse_response, if_neg (by simp [hc]), if_pos ht]
    exact parseTitan_defaults fields h1 h2

/-! ### Concrete environments used to instantiate the loop theorems -/

/-- A failure-free environment: init yields client 7 in 10 ms, every invoke
takes 100 ms, every parse 20 ms with token counts 3/5. -/
def envA : Env Nat Nat Unit :=
  { initClient := .ok (7, 1/100)
    invokeModel := fun c j => .ok (c + j, 1/10)
    parseResponse := fun _ _ => .ok (("ok", 3, 5), 1/50) }

/-- The stage data every iteration of `envA` (and every non-failing
iteration of `envB`) produces. -/
def bA : Nat → IterData := fun _ => ⟨1/10, 1/50, "ok", 3, 5⟩

/-- Like `envA`, but the invoke stage fails on iteration 2. -/
def envB : Env Nat Nat Unit :=
  { initClient := .ok (7, 1/100)
    invokeModel := fun c j => if j = 2 then .error () else .ok (c + j, 1/10)
    parseResponse := fun _ _ => .ok (("ok", 3, 5), 1/50) }

/-- Witness for claim C5 at `envA` with 2 iterations. -/
theorem run_success_records_witness :
    (run_timing_test envA 2).records =
      (List.range 2).map
        (fun j => mkRecord (if j = 0 then some ((1 : ℚ)/100) else none) (bA j)) ∧
    (run_timing_test envA 2).records.length = 2 ∧
    (run_timing_test envA 2).error = none ∧
    ((run_timing_test envA 2).records.getD 0 (mkRecord none (bA 0))).client_init =
      some ((1 : ℚ)/100) ∧
    (∀ j, 0 < j →
      ((run_timing_test envA 2).records.getD j (mkRecord none (bA j))).client_init = none) :=
  run_success_records Nat Nat Unit envA 2 7 (1/100) bA (by norm_num) rfl
    (fun j hj => rfl)

/-- Witness for claim C2 at `envB`: 3 requested iterations, failure on
iteration 2, so exactly the records of iterations 0 and 1 remain and the
exit code is 1. -/
theorem run_halts_on_stage_failure_witness :
    run_timing_test envB 3 =
      ⟨(List.range 2).map
         (fun j => mkRecord (if j = 0 then some ((1 : ℚ)/100) else none) (bA j)),
       some (), none⟩ ∧
    (run_timing_test envB 3).records.length = 2 ∧
    mainExit envB 3 = 1 :=
  run_halts_on_stage_failure.1 Nat Nat Unit envB 3 2 7 (1/100) bA ()
    (by norm_num) rfl (fun j hj => by interval_cases j <;> rfl) rfl

/-- Witness for claim C4 at the record of `envA`'s single iteration. -/
theorem record_total_invariants_witness :
    (mkRecord (some ((1 : ℚ)/100)) (bA 0)).total_without_init =
      (mkRecord (some ((1 : ℚ)/100)) (bA 0)).api_call +
        (mkRecord (some ((1 : ℚ)/100)) (bA 0)).response_parse ∧
    (mkRecord (some ((1 : ℚ)/100)) (bA 0)).total_with_init =
      (mkRecord (some ((1 : ℚ)/100)) (bA 0)).total_without_init +
        (mkRecord (some ((1 : ℚ)/100)) (bA 0)).client_init.getD 0 ∧
    (0 ≤ (mkRecord (some ((1 : ℚ)/100)) (bA 0)).client_init.getD 0 →
      (mkRecord (some ((1 : ℚ)/100)) (bA 0)).total_without_init ≤
        (mkRecord (some ((1 : ℚ)/100)) (bA 0)).total_with_init) :=
  record_total_invariants Nat Nat Unit envA 1 (mkRecord (some ((1 : ℚ)/100)) (bA 0))
    (by
      have h : (run_timing_test envA 1).records = [mkRecord (some ((1 : ℚ)/100)) (bA 0)] := rfl
      rw [h]
      exact List.mem_singleton.mpr rfl)

end BedrockTiming
